import Mathlib

/-!
Verification of the intel-fs MCP server (src/src/intel_fs/server.py) against its
natural-language specification.

The embedding models POSIX paths as lists of components (List String); a path
string supplied by a caller is split on the slash character exactly as pathlib
does when constructing a PurePosixPath (empty components and single-dot
components are dropped, double-dot components are kept and handled by
resolution).  The filesystem is modelled by the structure Fs below: a finite
list of regular files (with their decoded text and byte size), a finite list of
directories, and a resolution oracle resolveFn that models Path.resolve() -
following symlinks and normalizing double-dot segments.  For a filesystem
without symlinks the oracle is pyNormalize.  Machine integers coming from the
caller (max_results, max_chars, max_hits, ...) are modelled as Int, matching
Python arbitrary-precision int.

String primitives used by the server (str.startswith, str.endswith, str.lower,
str.strip, splitting on a separator, slicing) are modelled on the character
list underlying the Lean String, which coincides with Python semantics on the
code points involved.
-/

/-- Characters of a string; Python str is a sequence of code points, modelled by
the character list underlying a Lean String. -/
def strChars (s : String) : List Char := s.toList

/-- Model of Python str.startswith for a plain string argument. -/
def pyStartsWith (s pre : String) : Bool := pre.toList.isPrefixOf s.toList

/-- Model of Python str.endswith for a plain string argument. -/
def pyEndsWith (s suf : String) : Bool := suf.toList.isSuffixOf s.toList

/-- Model of Python str.lower restricted to the ASCII range (filenames and
queries handled by the server); Char.toLower lowers exactly the ASCII capitals. -/
def strLower (s : String) : String := String.mk (s.toList.map Char.toLower)

/-- Model of Python str.strip with no argument: remove leading and trailing
whitespace. -/
def pyStrip (s : String) : String :=
  String.mk (((s.toList.dropWhile Char.isWhitespace).reverse.dropWhile Char.isWhitespace).reverse)

/-- Split a character list on a separator character, as Python str.split(sep)
does: every occurrence of the separator ends the current (possibly empty)
piece.  The first argument accumulates the current piece in reverse. -/
def splitSep (sep : Char) : List Char → List Char → List (List Char)
  | acc, [] => [acc.reverse]
  | acc, c :: rest =>
    if c = sep then acc.reverse :: splitSep sep [] rest
    else splitSep sep (c :: acc) rest

/-- Join character lists with a separator character, as sep.join does. -/
def joinSep (sep : Char) : List (List Char) → List Char
  | [] => []
  | [c] => c
  | c :: cs => c ++ sep :: joinSep sep cs

/-- Path components of a caller-supplied path string, as pathlib PurePosixPath
parses it: split on the slash, drop empty components and single-dot components,
keep double-dot components (they are handled later by resolution). -/
def splitRel (s : String) : List String :=
  ((splitSep '/' [] s.toList).map String.mk).filter
    (fun c => !(c == "") && !(c == "."))

/-- Join path components into a slash-separated string, as str() and as_posix()
render a relative PurePosixPath. -/
def joinPath (comps : List String) : String :=
  String.mk (joinSep '/' (comps.map String.toList))

/-- Model of BASE_DIR / root (server.py line 35): pathlib replaces the base
when the right operand is absolute, otherwise appends its components. -/
def pyJoin (base : List String) (s : String) : List String :=
  if pyStartsWith s "/" then splitRel s else base ++ splitRel s

/-- Resolution of a path containing no symlinks: normalize double-dot segments
left to right; a double-dot at the filesystem root stays at the root, exactly
as Path.resolve does. -/
def pyNormalize (parts : List String) : List String :=
  parts.foldl (fun acc c => if c = ".." then acc.dropLast else acc ++ [c]) []

/-- Model of pathlib's p.parents viewed on components: the proper ancestor
chain of p, i.e. all proper component-wise prefixes of p down to the root. -/
def pyParents (p : List String) : List (List String) :=
  (List.range p.length).map (fun i => p.take i)

/-- The sandbox containment test of server.py (lines 38, 91, 157, 207): the
resolved path passes iff it equals BASE_DIR or BASE_DIR is a member of its
resolved ancestor chain.  This is ancestor-chain membership on components, not
a string-prefix comparison. -/
def sandboxed (base p : List String) : Bool :=
  decide (base = p) || decide (base ∈ pyParents p)

/-- Model of Python list/str slicing l[:m] for an arbitrary integer bound m:
a nonnegative bound takes the first m elements, a negative bound drops the
last -m elements. -/
def pySliceL (m : Int) (l : List α) : List α :=
  if 0 ≤ m then l.take m.toNat else l.take (l.length - (-m).toNat)

/-- Model of Python string slicing text[:m]. -/
def pySlice (s : String) (m : Int) : String := String.mk (pySliceL m s.toList)

/-- Model of pathlib's Path.suffix on a file name: the part of the name from
its last dot on, provided that dot is neither the first nor the last
character of the name; otherwise the empty string (so dotfiles such as .env
have no suffix). -/
def pySuffix (name : String) : String :=
  let cs := name.toList
  match cs.reverse.findIdx? (fun c => c == '.') with
  | none => ""
  | some i =>
    if 0 < i && i + 1 < cs.length then String.mk ((cs.reverse.take (i + 1)).reverse)
    else ""

/-- Helper for pyFileLines: reattach the newline removed by splitting; a final
empty piece means the text ended with a newline and yields no extra line. -/
def reattachNl : List (List Char) → List String
  | [] => []
  | [last] => if last = [] then [] else [String.mk last]
  | p :: rest => String.mk (p ++ ['\n']) :: reattachNl rest

/-- Lines produced by iterating a Python text-mode file object: pieces keep
their trailing newline, and an empty file yields no lines. -/
def pyFileLines (s : String) : List String :=
  if s = "" then [] else reattachNl (splitSep '\n' [] s.toList)

/-- Model of str.splitlines restricted to newline separators: like splitting
on the newline except that a trailing newline produces no final empty line. -/
def pySplitlines (s : String) : List String :=
  if s = "" then []
  else
    let ps := splitSep '\n' [] s.toList
    (if ps.getLast? = some [] then ps.dropLast else ps).map String.mk

/-- Join strings with a newline, as a newline join over splitlines output. -/
def joinLines (ls : List String) : String :=
  String.mk (joinSep '\n' (ls.map String.toList))

/-- True when the needle occurs as a contiguous run of the haystack, checking
every starting position; the empty needle occurs everywhere, as an empty
regular-expression pattern does in re.search. -/
def infixOfB (needle : List Char) : List Char → Bool
  | [] => needle.isPrefixOf []
  | c :: rest => needle.isPrefixOf (c :: rest) || infixOfB needle rest

/-- Model of re.search with a literal (escaped) pattern: substring containment
on the character lists. -/
def containsSub (hay needle : String) : Bool := infixOfB needle.toList hay.toList

/-- Lexicographic comparison of character lists, the order Python uses when
comparing the strings of two paths. -/
def clLe : List Char → List Char → Bool
  | [], _ => true
  | _ :: _, [] => false
  | a :: as, b :: bs => if a = b then clLe as bs else decide (a < b)

/-- String comparison through the character lists, modelling Python string
ordering used by sorted() on paths. -/
def strLeB (a b : String) : Bool := clLe a.toList b.toList

/-- Stable insertion into a sorted list, used by sortBy. -/
def insertSorted (le : α → α → Bool) (x : α) : List α → List α
  | [] => [x]
  | y :: ys => if le x y then x :: y :: ys else y :: insertSorted le x ys

/-- Stable ascending sort, modelling Python sorted() with the given order. -/
def sortBy (le : α → α → Bool) : List α → List α
  | [] => []
  | x :: xs => insertSorted le x (sortBy le xs)

/-- A regular file of the modelled filesystem: its absolute resolved path as
components, its decoded text (read_text with errors ignored), and its byte
size as reported by stat. -/
structure FileRec where
  path : List String
  text : String
  size : Int
deriving DecidableEq

/-- The filesystem model: regular files in traversal order, directories, and
the resolution oracle modelling Path.resolve() - following symlinks and
normalizing double-dot segments.  For a filesystem without symlinks the
oracle is pyNormalize applied to the joined components. -/
structure Fs where
  files : List FileRec
  dirs : List (List String)
  resolveFn : List String → List String

/-- Paths of the regular files. -/
def fsFilePaths (fs : Fs) : List (List String) := fs.files.map FileRec.path

/-- Model of Path.is_file on a resolved path. -/
def fsIsFile (fs : Fs) (p : List String) : Bool := decide (p ∈ fsFilePaths fs)

/-- Model of Path.is_dir on a resolved path. -/
def fsIsDir (fs : Fs) (p : List String) : Bool := decide (p ∈ fs.dirs)

/-- Model of Path.exists on a resolved path. -/
def pyExists (fs : Fs) (p : List String) : Bool := fsIsDir fs p || fsIsFile fs p

/-- Decoded text of the file at a resolved path (read_text with error-ignoring
decode); empty for a non-file. -/
def fsText (fs : Fs) (p : List String) : String :=
  ((fs.files.find? (fun f => decide (f.path = p))).map FileRec.text).getD ""

/-- True when p is a strict descendant of root, the membership test of
Path.rglob enumeration. -/
def isUnderStrict (root p : List String) : Bool :=
  root.isPrefixOf p && decide (root ≠ p)

/-- The regular files yielded by root_path.rglob("*") with the is_file filter
applied, in filesystem traversal order. -/
def rglobRecs (fs : Fs) (root : List String) : List FileRec :=
  fs.files.filter (fun f => isUnderStrict root f.path)

/-- Render p relative to the base directory, as str(p.relative_to(BASE_DIR))
and its as_posix variant do for a path below the base. -/
def relStr (base p : List String) : String := joinPath (p.drop base.length)

/-- Render the absolute base directory as str(BASE_DIR). -/
def absStr (base : List String) : String := "/" ++ joinPath base

/-! ### Structured responses

Each tool returns a Python dict; the structures below give one field per key
that can occur, with absent keys modelled as none.  Every response carries the
ok flag, and failure responses carry an error kind and a message, mirroring
the dict literals of server.py.
-/

/-- Response of the ping tool (server.py lines 17-19). -/
structure PingResp where
  ok : Bool
  message : String
deriving DecidableEq

/-- Response dict of list_files (server.py lines 22-68). -/
structure ListFilesResp where
  ok : Bool
  error : Option String := none
  message : Option String := none
  base_dir : Option String := none
  root : Option String := none
  count : Option Nat := none
  files : Option (List String) := none
deriving DecidableEq

/-- Response dict of read_file (server.py lines 72-116). -/
structure ReadFileResp where
  ok : Bool
  error : Option String := none
  message : Option String := none
  path : Option String := none
  truncated : Option Bool := none
  content : Option String := none
deriving DecidableEq

/-- Result dict of the structure extractor (server.py lines 119-144). -/
structure StructResult where
  functions : List String
  classes : List String
  imports : List String
  error : Option String
deriving DecidableEq

/-- One entry of the top_level listing of explain_repository; the type field
is the dir-or-file tag. -/
structure TopEntry where
  name : String
  type : String
deriving DecidableEq

/-- One file summary of explain_repository; struct models the key named
structure in the Python dict. -/
structure FileSummary where
  path : String
  struct : StructResult
  preview : String
deriving DecidableEq

/-- Response dict of explain_repository (server.py lines 147-199). -/
structure ExplainResp where
  ok : Bool
  error : Option String := none
  message : Option String := none
  base_dir : Option String := none
  root : Option String := none
  python_files_scanned : Option Nat := none
  entry_point_candidates : Option (List String) := none
  top_level : Option (List TopEntry) := none
  file_summaries : Option (List FileSummary) := none
deriving DecidableEq

/-- One hit of smart_search: relative path, 1-based line number, trimmed
line text. -/
structure SearchHit where
  path : String
  line : Nat
  text : String
deriving DecidableEq

/-- Response dict of smart_search (server.py lines 212-333). -/
structure SearchResp where
  ok : Bool
  error : Option String := none
  message : Option String := none
  engine : Option String := none
  query : Option String := none
  root : Option String := none
  hits : Option (List SearchHit) := none
  truncated : Option Bool := none
deriving DecidableEq

/-- Well-formedness of a structured response, in terms of its ok flag, error
kind and message: success carries no error kind, failure carries both an
error kind and a message. -/
def wellFormed (ok : Bool) (error message : Option String) : Prop :=
  (ok = true ∧ error = none) ∨
  (ok = false ∧ (∃ k, error = some k) ∧ (∃ m, message = some m))

/-! ### The tools -/

/-- The ping tool (server.py lines 17-19). -/
def ping : PingResp := { ok := true, message := "pong" }

/-- The loop of server.py lines 52-57: append each rel path, stopping as soon
as the collected count has reached max_results (the check runs after the
append, so a non-positive cap still lets the first entry through). -/
def collectCapped (m : Int) : List String → List String → List String
  | acc, [] => acc
  | acc, x :: xs =>
    let acc' := acc ++ [x]
    if ((acc'.length : Int) ≥ m) then acc' else collectCapped m acc' xs

/-- The list_files tool (server.py lines 22-68). -/
def list_files (fs : Fs) (base : List String) (root : String) (max_results : Int) :
    ListFilesResp :=
  if pyStartsWith root "~" || pyStartsWith root "/" then
    { ok := false, error := some "InvalidPath",
      message := some "Use a relative path like \x27.\x27 or \x27src\x27." }
  else
    let root_path := fs.resolveFn (pyJoin base root)
    if !(sandboxed base root_path) then
      { ok := false, error := some "SecurityError",
        message := some "Path escapes the sandbox base directory." }
    else if !(pyExists fs root_path) || !(fsIsDir fs root_path) then
      { ok := false, error := some "NotFound",
        message := some ("Folder not found: " ++ root) }
    else
      let entries := (rglobRecs fs root_path).map (fun f => relStr base f.path)
      let files := collectCapped max_results [] entries
      { ok := true, base_dir := some (absStr base), root := some root,
        count := some files.length, files := some files }

/-- The read_file tool (server.py lines 72-116). -/
def read_file (fs : Fs) (base : List String) (path : String) (max_chars : Int) :
    ReadFileResp :=
  if pyStartsWith path "~" || pyStartsWith path "/" then
    { ok := false, error := some "InvalidPath",
      message := some "Use a relative path like \x27README.md\x27 or \x27src/intel_fs/server.py\x27." }
  else
    let fp := fs.resolveFn (pyJoin base path)
    if !(sandboxed base fp) then
      { ok := false, error := some "SecurityError",
        message := some "Path escapes the sandbox base directory." }
    else if !(pyExists fs fp) || !(fsIsFile fs fp) then
      { ok := false, error := some "NotFound",
        message := some ("File not found: " ++ path) }
    else
      let text := fsText fs fp
      let truncated := decide ((text.toList.length : Int) > max_chars)
      { ok := true, path := some (relStr base fp),
        truncated := some truncated, content := some (pySlice text max_chars) }

/-! ### Structure extraction -/

/-- A node of the parsed Python syntax tree, as far as the extractor of
server.py lines 119-144 inspects it: function, async function and class
definitions carry a name and child nodes, import statements carry the
imported names (for from-imports the source module, with the empty string
modelling an absent module), and every other statement only carries its
child nodes. -/
inductive PyNode where
  | functionDef (name : String) (body : List PyNode)
  | asyncFunctionDef (name : String) (body : List PyNode)
  | classDef (name : String) (body : List PyNode)
  | importStmt (names : List String)
  | importFrom (module : String) (names : List String)
  | stmt (children : List PyNode)

/-- A parse oracle modelling ast.parse: either the module body or the message
of the SyntaxError it raises.  The Python grammar itself is outside this
repository, so the parser is a parameter of the extractor. -/
def PyParse := String → Except String (List PyNode)

mutual

/-- Names collected from one node and its descendants, in the order
(functions, classes, imports).  CPython's ast.walk enumerates nodes
breadth-first; the traversal order only affects which names survive the
caps, which no property below depends on, so the walk is modelled
depth-first. -/
def nodeSummary : PyNode → List String × List String × List String
  | .functionDef n body =>
    let (f, c, i) := bodySummary body
    (n :: f, c, i)
  | .asyncFunctionDef n body =>
    let (f, c, i) := bodySummary body
    (n :: f, c, i)
  | .classDef n body =>
    let (f, c, i) := bodySummary body
    (f, n :: c, i)
  | .importStmt names => ([], [], names)
  | .importFrom m names =>
    ([], [], names.map (fun n => if m == "" then n else m ++ "." ++ n))
  | .stmt children => bodySummary children

/-- Names collected from a list of sibling nodes. -/
def bodySummary : List PyNode → List String × List String × List String
  | [] => ([], [], [])
  | n :: rest =>
    let (f, c, i) := nodeSummary n
    let (f', c', i') := bodySummary rest
    (f ++ f', c ++ c', i ++ i')

end

/-- The structure extractor _summarize_python_ast (server.py lines 119-144):
on a parse failure the lists stay empty and the error message is captured;
on success the collected lists are capped at 60, 40 and 80 entries. -/
def summarize_python_ast (parse : PyParse) (text : String) : StructResult :=
  match parse text with
  | .error e => { functions := [], classes := [], imports := [], error := some e }
  | .ok body =>
    let (f, c, i) := bodySummary body
    { functions := f.take 60, classes := c.take 40, imports := i.take 80, error := none }

/-! ### The sandbox resolver and explain_repository -/

/-- The two exception types _safe_resolve raises (server.py lines 202-209),
caught by type in smart_search (lines 328-331). -/
inductive PyErr where
  | valueError (msg : String)
  | permissionError (msg : String)
deriving DecidableEq

/-- The sandbox resolver _safe_resolve (server.py lines 202-209). -/
def safe_resolve (fs : Fs) (base : List String) (rel_path : String) :
    Except PyErr (List String) :=
  if pyStartsWith rel_path "~" || pyStartsWith rel_path "/" then
    .error (.valueError "InvalidPath: use a relative path.")
  else
    let p := fs.resolveFn (pyJoin base rel_path)
    if !(sandboxed base p) then
      .error (.permissionError "SecurityError: path escapes sandbox.")
    else .ok p

/-- Last component of a path, modelling Path.name. -/
def lastName (p : List String) : String := p.getLastD ""

/-- Order on absolute paths induced by their rendered strings, the order
sorted() uses on Path objects. -/
def pathLe (a b : List String) : Bool :=
  clLe (joinSep '/' (a.map String.toList)) (joinSep '/' (b.map String.toList))

/-- The scanned Python files of explain_repository (server.py line 162):
regular files under the root whose name matches *.py, sorted by path, then
cut by the max_files slice. -/
def pyFilesScanned (fs : Fs) (root_path : List String) (max_files : Int) :
    List (List String) :=
  pySliceL max_files
    (sortBy pathLe
      ((rglobRecs fs root_path).map FileRec.path |>.filter
        (fun p => pyEndsWith (lastName p) ".py")))

/-- The entry-point naming test of server.py lines 171-172 on the
relative-to-base path of a scanned file, after lowercasing. -/
def isEntryName (rel : String) : Bool :=
  let low := strLower rel
  pyEndsWith low "main.py" || pyEndsWith low "__main__.py" ||
    low == "app.py" || low == "server.py"

/-- All entry-point candidates collected by the scan loop of
explain_repository (lines 167-173), in scanned order, before the final
slice of ten. -/
def entryCandidatesAll (base : List String) (scanned : List (List String)) :
    List String :=
  (scanned.map (relStr base)).filter isEntryName

/-- The immediate children of the root with their dir-or-file tag
(server.py lines 183-186), sorted by (type, name). -/
def topLevelOf (fs : Fs) (root_path : List String) : List TopEntry :=
  let isChild := fun (p : List String) =>
    isUnderStrict root_path p && decide (p.length = root_path.length + 1)
  let raw :=
    (fs.dirs.filter isChild).map (fun d => { name := lastName d, type := "dir" : TopEntry }) ++
      ((fs.files.map FileRec.path).filter isChild).map
        (fun f => { name := lastName f, type := "file" : TopEntry })
  sortBy (fun a b => clLe (a.type ++ "/" ++ a.name).toList (b.type ++ "/" ++ b.name).toList) raw

/-- The explain_repository tool (server.py lines 147-199). -/
def explain_repository (parse : PyParse) (fs : Fs) (base : List String)
    (root : String) (max_files max_chars_per_file : Int) : ExplainResp :=
  if pyStartsWith root "~" || pyStartsWith root "/" then
    { ok := false, error := some "InvalidPath",
      message := some "Use a relative path like \x27.\x27 or \x27src\x27." }
  else
    let root_path := fs.resolveFn (pyJoin base root)
    if !(sandboxed base root_path) then
      { ok := false, error := some "SecurityError",
        message := some "Root escapes the sandbox base directory." }
    else if !(pyExists fs root_path) || !(fsIsDir fs root_path) then
      { ok := false, error := some "NotFound",
        message := some ("Folder not found: " ++ root) }
    else
      let py_files := pyFilesScanned fs root_path max_files
      let entry_candidates := entryCandidatesAll base py_files
      let summaries := py_files.map (fun p =>
        let text := pySlice (fsText fs p) max_chars_per_file
        { path := relStr base p,
          struct := summarize_python_ast parse text,
          preview := joinLines ((pySplitlines text).take 30) : FileSummary })
      { ok := true, base_dir := some (absStr base), root := some root,
        python_files_scanned := some py_files.length,
        entry_point_candidates := some (pySliceL 10 entry_candidates),
        top_level := some (pySliceL 200 (topLevelOf fs root_path)),
        file_summaries := some summaries }

/-! ### smart_search -/

/-- The smart_search tool as shipped (server.py lines 212-333).  The sandbox
resolution and the directory check run first; past them the code evaluates
shutil.which at line 232, but the module imports (lines 1-6) bring in only
pathlib.Path, fastmcp.FastMCP, os and ast - shutil, subprocess and re are
never imported - so the name lookup raises NameError, which the catch-all
handler at lines 332-333 converts into the structured failure below.  Every
call that reaches the search logic therefore fails the same way, and the
ripgrep and fallback branches are unreachable. -/
def smart_search (fs : Fs) (base : List String) (query root : String)
    (use_regex case_sensitive : Bool) (max_hits max_file_size_kb : Int) :
    SearchResp :=
  match safe_resolve fs base root with
  | .error (.valueError m) =>
    { ok := false, error := some "InvalidPath", message := some m }
  | .error (.permissionError m) =>
    { ok := false, error := some "SecurityError", message := some m }
  | .ok root_path =>
    if !(pyExists fs root_path) || !(fsIsDir fs root_path) then
      { ok := false, error := some "NotFound",
        message := some ("Folder not found: " ++ root) }
    else
      { ok := false, error := some "NameError",
        message := some "name \x27shutil\x27 is not defined" }

/-- The extension allow-list of the fallback scanner (server.py line 282). -/
def textExts : List String :=
  [".py", ".md", ".txt", ".toml", ".yaml", ".yml", ".json", ".env", ".ini", ".cfg"]

/-- The compiled pattern of server.py lines 277-278 as a line predicate: the
query is taken literally (regex metacharacters escaped) unless use_regex is
set, and matching is case-insensitive unless case_sensitive is set.  General
regular-expression matching is delegated to the given oracle, which models
the compiled re pattern including its flags. -/
def compiledSearch (regexSearch : Bool → String → String → Bool)
    (query : String) (use_regex case_sensitive : Bool) : String → Bool :=
  fun line =>
    if use_regex then regexSearch case_sensitive query line
    else if case_sensitive then containsSub line query
    else containsSub (strLower line) (strLower query)

/-- The inner line loop of the fallback scanner (server.py lines 298-315):
1-based enumeration, a hit records the relative path and the stripped line,
and once the hit count reaches max_hits the whole tool returns immediately
with the truncated flag set (signalled here by the true component). -/
def scanLines (pat : String → Bool) (rel : String) (max_hits : Int)
    (acc : List SearchHit) (i : Nat) : List String → List SearchHit × Bool
  | [] => (acc, false)
  | l :: ls =>
    if pat l then
      let acc' := acc ++ [{ path := rel, line := i, text := pyStrip l : SearchHit }]
      if ((acc'.length : Int) ≥ max_hits) then (acc', true)
      else scanLines pat rel max_hits acc' (i + 1) ls
    else scanLines pat rel max_hits acc (i + 1) ls

/-- The file loop of the fallback scanner (server.py lines 284-317): skip
files whose lowercased suffix is not allow-listed and files larger than the
size cap, scan the rest line by line, and stop the whole traversal as soon
as the line loop reports the cap. -/
def scanFiles (pat : String → Bool) (base : List String)
    (max_hits max_file_size_kb : Int) (acc : List SearchHit) :
    List FileRec → List SearchHit × Bool
  | [] => (acc, false)
  | f :: rest =>
    if !(textExts.contains (strLower (pySuffix (lastName f.path)))) then
      scanFiles pat base max_hits max_file_size_kb acc rest
    else if f.size > max_file_size_kb * 1024 then
      scanFiles pat base max_hits max_file_size_kb acc rest
    else
      match scanLines pat (relStr base f.path) max_hits acc 1 (pyFileLines f.text) with
      | (acc', true) => (acc', true)
      | (acc', false) => scanFiles pat base max_hits max_file_size_kb acc' rest

/-- The Python fallback scanner of smart_search, server.py lines 277-326,
embedded as the search the tool performs when no ripgrep executable exists.
In the shipped module this code is unreachable (see smart_search above); it
is the behavior the spec describes for the fallback engine, and the shape it
would have were the missing imports present. -/
def smart_search_fallback (regexSearch : Bool → String → String → Bool)
    (fs : Fs) (base : List String) (query root : String)
    (use_regex case_sensitive : Bool) (max_hits max_file_size_kb : Int) :
    SearchResp :=
  match safe_resolve fs base root with
  | .error (.valueError m) =>
    { ok := false, error := some "InvalidPath", message := some m }
  | .error (.permissionError m) =>
    { ok := false, error := some "SecurityError", message := some m }
  | .ok root_path =>
    if !(pyExists fs root_path) || !(fsIsDir fs root_path) then
      { ok := false, error := some "NotFound",
        message := some ("Folder not found: " ++ root) }
    else
      let pat := compiledSearch regexSearch query use_regex case_sensitive
      match scanFiles pat base max_hits max_file_size_kb [] (rglobRecs fs root_path) with
      | (hits, true) =>
        { ok := true, engine := some "python", query := some query,
          root := some root, hits := some hits, truncated := some true }
      | (hits, false) =>
        { ok := true, engine := some "python", query := some query,
          root := some root, hits := some hits, truncated := some false }

/-! ### The operation surface as a state transformer -/

/-- A call to one of the five tools with its arguments. -/
inductive ToolCall where
  | pingC
  | listFilesC (root : String) (max_results : Int)
  | readFileC (path : String) (max_chars : Int)
  | explainC (root : String) (max_files max_chars_per_file : Int)
  | searchC (query root : String) (use_regex case_sensitive : Bool)
      (max_hits max_file_size_kb : Int)

/-- The response of one tool call. -/
inductive ToolOut where
  | pingO (r : PingResp)
  | listFilesO (r : ListFilesResp)
  | readFileO (r : ReadFileResp)
  | explainO (r : ExplainResp)
  | searchO (r : SearchResp)

/-- One tool call as a transformer of the filesystem state: the tool computes
its response from the state and passes the state through.  Every filesystem
primitive the tools use (resolve, exists, is_dir, is_file, rglob, iterdir,
stat, read_text) is a read; server.py contains no write, create, delete or
permission-changing call, so the state is returned unchanged. -/
def runTool (parse : PyParse) (fs : Fs) (base : List String) :
    ToolCall → Fs × ToolOut
  | .pingC => (fs, .pingO ping)
  | .listFilesC root mr => (fs, .listFilesO (list_files fs base root mr))
  | .readFileC path mc => (fs, .readFileO (read_file fs base path mc))
  | .explainC root mf mc => (fs, .explainO (explain_repository parse fs base root mf mc))
  | .searchC q root ur cs mh kb =>
    (fs, .searchO (smart_search fs base q root ur cs mh kb))

/-! ### Well-formed filesystems and concrete instances -/

/-- Well-formedness of a filesystem model: every component of a stored file
path is a real file name (nonempty, not a dot component, without a slash),
and stored file paths are canonical, i.e. fixed by the resolution oracle -
real resolved paths contain no symlink or dot segments to rewrite. -/
def FsWF (fs : Fs) : Prop :=
  (∀ f ∈ fs.files, ∀ c ∈ f.path, c ≠ "" ∧ c ≠ "." ∧ '/' ∉ c.toList) ∧
  (∀ f ∈ fs.files, fs.resolveFn f.path = f.path)

instance (fs : Fs) : Decidable (FsWF fs) := by
  unfold FsWF
  infer_instance

/-- Base directory used by the concrete instances below, modelling /base. -/
def wbase : List String := ["base"]

/-- A concrete symlink-free repository under /base used to instantiate the
universally quantified theorems: a short text file, a markdown note holding
a lowercased todo marker, a markdown file with two lines matching the query
hit, and eleven Python files whose names match the entry-point conventions. -/
def wfs : Fs :=
  { files :=
      [ { path := ["base", "a.txt"], text := "ab", size := 2 },
        { path := ["base", "notes.md"], text := "// todo: fix\n", size := 13 },
        { path := ["base", "t.md"], text := "x hit\ny hit\n", size := 12 },
        { path := ["base", "e01main.py"], text := "", size := 0 },
        { path := ["base", "e02main.py"], text := "", size := 0 },
        { path := ["base", "e03main.py"], text := "", size := 0 },
        { path := ["base", "e04main.py"], text := "", size := 0 },
        { path := ["base", "e05main.py"], text := "", size := 0 },
        { path := ["base", "e06main.py"], text := "", size := 0 },
        { path := ["base", "e07main.py"], text := "", size := 0 },
        { path := ["base", "e08main.py"], text := "", size := 0 },
        { path := ["base", "e09main.py"], text := "", size := 0 },
        { path := ["base", "e10main.py"], text := "", size := 0 },
        { path := ["base", "e11main.py"], text := "", size := 0 } ],
    dirs := [["base"]],
    resolveFn := pyNormalize }

/-- A second, different concrete filesystem (empty, with the identity
resolution oracle), used to exhibit that rejected inputs are answered
without consulting the filesystem. -/
def wfs2 : Fs := { files := [], dirs := [], resolveFn := fun p => p }

/-- A concrete filesystem whose single regular file has a name beginning
with the home marker, legal on a POSIX filesystem. -/
def cexFs : Fs :=
  { files := [ { path := ["base", "~x"], text := "h", size := 1 } ],
    dirs := [["base"]],
    resolveFn := pyNormalize }

/-- A parse oracle that fails on every input with a fixed syntax error, the
shape ast.parse produces on invalid source. -/
def parseFail : PyParse := fun _ => .error "invalid syntax (<unknown>, line 1)"

/-! ### Helper lemmas -/

/-- Rebuilding a string from its characters is the identity. -/
theorem strMk_toList (s : String) : String.mk s.toList = s := by
  cases s; rfl

/-- The sandbox containment test holds exactly when the base is a
component-wise prefix of the resolved path: membership of the base in the
resolved ancestor chain is proper-prefix membership, and the equality case
completes the reflexive prefix. -/
theorem sandboxed_iff (base p : List String) : sandboxed base p = true ↔ base <+: p := by
  unfold sandboxed pyParents
  simp only [Bool.or_eq_true, decide_eq_true_eq, List.mem_map, List.mem_range]
  constructor
  · rintro (rfl | ⟨i, _, rfl⟩)
    · exact List.prefix_refl _
    · exact List.take_prefix _ _
  · intro h
    rcases eq_or_ne base p with rfl | hne
    · exact Or.inl rfl
    · refine Or.inr ⟨base.length, ?_, (List.prefix_iff_eq_take.mp h).symm⟩
      rcases Nat.lt_or_ge base.length p.length with hlt | hge
      · exact hlt
      · exact absurd (List.IsPrefix.eq_of_length h (Nat.le_antisymm h.length_le hge)) hne

/-- The capped collection loop never grows past the cap once the cap is
positive: the check after each append stops at the cap exactly. -/
theorem collectCapped_length (m : Int) :
    ∀ (l acc : List String), (acc.length : Int) < m →
      ((collectCapped m acc l).length : Int) ≤ m := by
  intro l
  induction l with
  | nil => intro acc h; simpa [collectCapped] using le_of_lt h
  | cons x xs ih =>
    intro acc h
    simp only [collectCapped]
    have hlen : ((acc ++ [x]).length : Int) = (acc.length : Int) + 1 := by simp
    split
    · omega
    · next hge => exact ih (acc ++ [x]) (by omega)

/-- Every element the capped collection loop returns came from the
accumulator or from the input list. -/
theorem collectCapped_mem (m : Int) :
    ∀ (l acc : List String) (e : String), e ∈ collectCapped m acc l →
      e ∈ acc ∨ e ∈ l := by
  intro l
  induction l with
  | nil => intro acc e h; exact Or.inl (by simpa [collectCapped] using h)
  | cons x xs ih =>
    intro acc e h
    simp only [collectCapped] at h
    split at h
    · rcases List.mem_append.mp h with h' | h'
      · exact Or.inl h'
      · exact Or.inr (by simpa using Or.inl (by simpa using h'))
    · rcases ih (acc ++ [x]) e h with h' | h'
      · rcases List.mem_append.mp h' with h'' | h''
        · exact Or.inl h''
        · exact Or.inr (by simp at h''; simp [h''])
      · exact Or.inr (List.mem_cons_of_mem _ h')

/-- Splitting consumes a separator-free run into the accumulator. -/
theorem splitSep_no_sep (sep : Char) :
    ∀ (w : List Char), sep ∉ w → ∀ (acc rest : List Char),
      splitSep sep acc (w ++ rest) = splitSep sep (w.reverse ++ acc) rest := by
  intro w
  induction w with
  | nil => intro _ acc rest; simp
  | cons c w' ih =>
    intro hw acc rest
    have hcs : ¬(c = sep) := fun h => hw (by simp [h])
    simp only [List.cons_append, splitSep, if_neg hcs]
    rw [List.append_eq, ih (fun h => hw (List.mem_cons_of_mem _ h)) (c :: acc) rest]
    simp

/-- Splitting on the separator undoes joining with it, for a nonempty list of
separator-free pieces. -/
theorem splitSep_joinSep (sep : Char) :
    ∀ (L : List (List Char)), L ≠ [] → (∀ l ∈ L, sep ∉ l) →
      splitSep sep [] (joinSep sep L) = L := by
  intro L
  induction L with
  | nil => intro h; exact absurd rfl h
  | cons l L' ih =>
    intro _ hL
    cases L' with
    | nil =>
      have h1 : joinSep sep [l] = l ++ [] := by simp [joinSep]
      rw [h1, splitSep_no_sep sep l (hL l (by simp)) [] []]
      simp [splitSep]
    | cons l2 L'' =>
      have h1 : joinSep sep (l :: l2 :: L'') = l ++ (sep :: joinSep sep (l2 :: L'')) := rfl
      rw [h1, splitSep_no_sep sep l (hL l (by simp)) [] _]
      simp only [splitSep, if_pos rfl]
      rw [ih (by simp) (fun x hx => hL x (by simp [hx]))]
      simp

/-- The join of a nonempty component list starts with its first component. -/
theorem joinSep_cons_exists (sep : Char) (c : List Char) (rest : List (List Char)) :
    ∃ t, joinSep sep (c :: rest) = c ++ t := by
  cases rest with
  | nil => exact ⟨[], by simp [joinSep]⟩
  | cons r rs => exact ⟨sep :: joinSep sep (r :: rs), rfl⟩

/-- A string with characters is not empty. -/
theorem strMk_ne_empty (c : Char) (tl : List Char) : String.mk (c :: tl) ≠ "" := by
  intro h
  have : (String.mk (c :: tl)).toList = ("" : String).toList := by rw [h]
  simp [String.toList] at this

/-- The rendered relative path of good components does not start with a
slash: its first character is the first character of the first component. -/
theorem joinPath_not_slash (comps : List String) (h0 : comps ≠ [])
    (hhead : ∀ c ∈ comps, c ≠ "" ∧ '/' ∉ c.toList) :
    pyStartsWith (joinPath comps) "/" = false := by
  obtain ⟨c0, rest, rfl⟩ := List.exists_cons_of_ne_nil h0
  obtain ⟨t, ht⟩ := joinSep_cons_exists '/' c0.toList (rest.map String.toList)
  have hc0 := hhead c0 (by simp)
  unfold pyStartsWith joinPath
  have htl : (String.mk (joinSep '/' ((c0 :: rest).map String.toList))).toList =
      joinSep '/' ((c0 :: rest).map String.toList) := rfl
  rw [htl]
  simp only [List.map_cons] at ht ⊢
  rw [ht]
  cases hcl : c0.toList with
  | nil =>
    have hc : c0 = "" := by
      have h := congrArg String.mk hcl
      rw [strMk_toList] at h
      exact h
    exact absurd hc hc0.1
  | cons ch tl =>
    have hch : ¬(('/' : Char) = ch) := by
      intro h
      exact hc0.2 (by rw [hcl]; exact h ▸ List.mem_cons_self _ _)
    have hsl : ("/" : String).toList = ['/'] := rfl
    rw [hsl]
    simp [List.isPrefixOf, hch]

/-- Parsing the rendered relative path of good components (nonempty, not a
single dot, slash-free) recovers exactly those components. -/
theorem splitRel_joinPath (comps : List String) (h0 : comps ≠ [])
    (hc : ∀ c ∈ comps, c ≠ "" ∧ c ≠ "." ∧ '/' ∉ c.toList) :
    splitRel (joinPath comps) = comps := by
  unfold splitRel joinPath
  have htl : (String.mk (joinSep '/' (comps.map String.toList))).toList =
      joinSep '/' (comps.map String.toList) := rfl
  rw [htl, splitSep_joinSep '/' (comps.map String.toList) (by simpa using h0)
      (fun l hl => by
        obtain ⟨c, hc', rfl⟩ := List.mem_map.mp hl
        exact (hc c hc').2.2)]
  rw [List.map_map]
  have hid : (String.mk ∘ String.toList) = (id : String → String) :=
    funext fun s => strMk_toList s
  rw [hid, List.map_id]
  rw [List.filter_eq_self.mpr]
  intro c hcm
  have h := hc c hcm
  simp [h.1, h.2.1]

/-- Appending the dropped tail of a prefix recovers the whole list. -/
theorem prefix_append_drop {α : Type} (base p : List α) (h : base <+: p) :
    base ++ p.drop base.length = p := by
  obtain ⟨t, rfl⟩ := h
  simp

/-- Re-resolving the relative rendering of a canonical file path below the
base succeeds and returns that path: the rendering neither starts with a
marker (given for the home marker, derived for the slash), splits back into
the original components, and resolves to a path the sandbox test accepts. -/
theorem reresolve_ok (fs : Fs) (base p : List String)
    (hwfc : ∀ c ∈ p, c ≠ "" ∧ c ≠ "." ∧ '/' ∉ c.toList)
    (hres : fs.resolveFn p = p)
    (hpre : base <+: p) (hlt : base.length < p.length)
    (hnt : pyStartsWith (relStr base p) "~" = false) :
    safe_resolve fs base (relStr base p) = Except.ok p := by
  have hcomps : p.drop base.length ≠ [] := by
    intro h
    have := congrArg List.length h
    simp at this
    omega
  have hgood : ∀ c ∈ p.drop base.length, c ≠ "" ∧ c ≠ "." ∧ '/' ∉ c.toList :=
    fun c hc => hwfc c (List.mem_of_mem_drop hc)
  have hslash : pyStartsWith (relStr base p) "/" = false :=
    joinPath_not_slash _ hcomps (fun c hc => ⟨(hgood c hc).1, (hgood c hc).2.2⟩)
  have hjoin : pyJoin base (relStr base p) = p := by
    unfold pyJoin
    rw [hslash]
    simp only [Bool.false_eq_true, if_false]
    unfold relStr
    rw [splitRel_joinPath _ hcomps hgood]
    exact prefix_append_drop base p hpre
  unfold safe_resolve
  rw [hnt, hslash]
  simp only [Bool.or_self, Bool.false_eq_true, if_false]
  rw [hjoin, hres]
  rw [(sandboxed_iff base p).mpr hpre]
  simp

/-! ### Claim theorems -/

/-- Claim C2: for every input path string beginning with the absolute-path
marker or the home marker, each of list_files, read_file, explain_repository
and smart_search returns the InvalidPath error, and the response is computed
without consulting the filesystem: it is the same over any two filesystem
states (and any two parse oracles), so no filesystem access can have
influenced it. -/
theorem marker_inputs_rejected_before_fs_access
    (fs fs' : Fs) (parse parse' : PyParse) (base : List String) (root : String)
    (mr mc mf mcpf mh kb : Int) (ur cs : Bool) (q : String)
    (h : pyStartsWith root "~" = true ∨ pyStartsWith root "/" = true) :
    ((list_files fs base root mr).error = some "InvalidPath" ∧
      list_files fs base root mr = list_files fs' base root mr) ∧
    ((read_file fs base root mc).error = some "InvalidPath" ∧
      read_file fs base root mc = read_file fs' base root mc) ∧
    ((explain_repository parse fs base root mf mcpf).error = some "InvalidPath" ∧
      explain_repository parse fs base root mf mcpf =
        explain_repository parse' fs' base root mf mcpf) ∧
    ((smart_search fs base q root ur cs mh kb).error = some "InvalidPath" ∧
      smart_search fs base q root ur cs mh kb =
        smart_search fs' base q root ur cs mh kb) := by
  have hg : (pyStartsWith root "~" || pyStartsWith root "/") = true := by
    rcases h with h | h <;> simp [h]
  refine ⟨⟨?_, ?_⟩, ⟨?_, ?_⟩, ⟨?_, ?_⟩, ⟨?_, ?_⟩⟩ <;>
    simp [list_files, read_file, explain_repository, smart_search, safe_resolve, hg]

/-- Witness for C2 at the concrete input "~/etc" over two different concrete
filesystem states. -/
theorem marker_inputs_rejected_before_fs_access_witness :
    ((list_files wfs wbase "~/etc" 200).error = some "InvalidPath" ∧
      list_files wfs wbase "~/etc" 200 = list_files wfs2 wbase "~/etc" 200) ∧
    ((read_file wfs wbase "~/etc" 20000).error = some "InvalidPath" ∧
      read_file wfs wbase "~/etc" 20000 = read_file wfs2 wbase "~/etc" 20000) ∧
    ((explain_repository parseFail wfs wbase "~/etc" 60 12000).error = some "InvalidPath" ∧
      explain_repository parseFail wfs wbase "~/etc" 60 12000 =
        explain_repository parseFail wfs2 wbase "~/etc" 60 12000) ∧
    ((smart_search wfs wbase "q" "~/etc" false false 50 512).error = some "InvalidPath" ∧
      smart_search wfs wbase "q" "~/etc" false false 50 512 =
        smart_search wfs2 wbase "q" "~/etc" false false 50 512) :=
  marker_inputs_rejected_before_fs_access wfs wfs2 parseFail parseFail wbase "~/etc"
    200 20000 60 12000 50 512 false false "q" (Or.inl (by decide))

/-- Claim C4: every tool returns a structured response: ping reports
success, and each of the four other tools returns a response whose ok flag
is either true with no error kind, or false with both an error kind and a
message - the catch-all branch of smart_search included.  The embedding is
total, so no failure escapes an operation as an unhandled fault. -/
theorem every_tool_response_well_formed
    (parse : PyParse) (fs : Fs) (base : List String)
    (root path q : String) (mr mc mf mcpf mh kb : Int) (ur cs : Bool) :
    (ping.ok = true) ∧
    wellFormed (list_files fs base root mr).ok (list_files fs base root mr).error
      (list_files fs base root mr).message ∧
    wellFormed (read_file fs base path mc).ok (read_file fs base path mc).error
      (read_file fs base path mc).message ∧
    wellFormed (explain_repository parse fs base root mf mcpf).ok
      (explain_repository parse fs base root mf mcpf).error
      (explain_repository parse fs base root mf mcpf).message ∧
    wellFormed (smart_search fs base q root ur cs mh kb).ok
      (smart_search fs base q root ur cs mh kb).error
      (smart_search fs base q root ur cs mh kb).message := by
  refine ⟨rfl, ?_, ?_, ?_, ?_⟩
  · simp only [list_files, wellFormed]
    split
    · simp
    · split
      · simp
      · split
        · simp
        · simp
  · simp only [read_file, wellFormed]
    split
    · simp
    · split
      · simp
      · split
        · simp
        · simp
  · simp only [explain_repository, wellFormed]
    split
    · simp
    · split
      · simp
      · split
        · simp
        · simp
  · simp only [smart_search, wellFormed]
    split
    · simp
    · simp
    · split
      · simp
      · simp

/-- Claim C8: on any source text the parse oracle rejects (with the nonempty
message ast.parse's SyntaxError carries), the structure extractor returns
empty function, class and import lists and a nonempty error message; being a
total function, it raises nothing and no failure reaches its caller. -/
theorem extractor_invalid_source (parse : PyParse) (text e : String)
    (hp : parse text = Except.error e) (he : e ≠ "") :
    (summarize_python_ast parse text).functions = [] ∧
    (summarize_python_ast parse text).classes = [] ∧
    (summarize_python_ast parse text).imports = [] ∧
    ∃ msg, (summarize_python_ast parse text).error = some msg ∧ msg ≠ "" := by
  unfold summarize_python_ast
  rw [hp]
  exact ⟨rfl, rfl, rfl, e, rfl, he⟩

/-- Witness for C8 on a concrete failing parse. -/
theorem extractor_invalid_source_witness :
    (summarize_python_ast parseFail "def f(:").functions = [] ∧
    (summarize_python_ast parseFail "def f(:").classes = [] ∧
    (summarize_python_ast parseFail "def f(:").imports = [] ∧
    ∃ msg, (summarize_python_ast parseFail "def f(:").error = some msg ∧ msg ≠ "" :=
  extractor_invalid_source parseFail "def f(:" "invalid syntax (<unknown>, line 1)"
    rfl (by decide)

/-- Claim C9: no tool mutates the filesystem: running any of the five tools
as a state transformer returns the filesystem state it was given.  Every
filesystem primitive the tools invoke is a read; server.py contains no
write, create, delete or permission-changing call. -/
theorem tools_read_only (parse : PyParse) (fs : Fs) (base : List String)
    (c : ToolCall) : (runTool parse fs base c).1 = fs := by
  cases c <;> rfl

/-- Claim C1, counterexample: the caller path /etc fully resolves to /etc,
outside the base /base, yet list_files answers InvalidPath - the marker
check fires before any resolution - and not the SecurityError the claim
demands for every caller-supplied path resolving outside the base. -/
theorem absolute_escape_answered_invalidPath :
    wfs.resolveFn (pyJoin wbase "/etc") = ["etc"] ∧
    sandboxed wbase (wfs.resolveFn (pyJoin wbase "/etc")) = false ∧
    (list_files wfs wbase "/etc" 200).error = some "InvalidPath" ∧
    (list_files wfs wbase "/etc" 200).error ≠ some "SecurityError" := by
  refine ⟨by decide, by decide, by decide, by decide⟩

/-- Claim C1 (amended): for every caller-supplied path that does not begin
with the absolute or home marker and whose full resolution - the resolution
oracle covers symlink following and double-dot normalization - is neither
the base directory nor a strict descendant of it, all four path-accepting
tools return SecurityError.  Containment is the ancestor-chain membership
test sandboxed, which rejects lookalike siblings such as /base-evil against
/base (see the witness). -/
theorem resolved_escape_rejected (fs : Fs) (parse : PyParse) (base : List String)
    (root q : String) (mr mc mf mcpf mh kb : Int) (ur cs : Bool)
    (h1 : pyStartsWith root "~" = false) (h2 : pyStartsWith root "/" = false)
    (hout : sandboxed base (fs.resolveFn (pyJoin base root)) = false) :
    (list_files fs base root mr).error = some "SecurityError" ∧
    (read_file fs base root mc).error = some "SecurityError" ∧
    (explain_repository parse fs base root mf mcpf).error = some "SecurityError" ∧
    (smart_search fs base q root ur cs mh kb).error = some "SecurityError" := by
  refine ⟨?_, ?_, ?_, ?_⟩ <;>
    simp [list_files, read_file, explain_repository, smart_search, safe_resolve,
      h1, h2, hout]

/-- Witness for the amended C1 at the lookalike sibling: ../base-evil
resolves to /base-evil, which shares the string prefix /base with the base
directory but is not a descendant, and every tool rejects it with
SecurityError. -/
theorem resolved_escape_rejected_witness :
    (list_files wfs wbase "../base-evil" 200).error = some "SecurityError" ∧
    (read_file wfs wbase "../base-evil" 20000).error = some "SecurityError" ∧
    (explain_repository parseFail wfs wbase "../base-evil" 60 12000).error =
      some "SecurityError" ∧
    (smart_search wfs wbase "q" "../base-evil" false false 50 512).error =
      some "SecurityError" :=
  resolved_escape_rejected wfs parseFail wbase "../base-evil" "q"
    200 20000 60 12000 50 512 false false (by decide) (by decide) (by decide)

/-- Claim C5, counterexample: reading the two-character file a.txt with
maxChars = -1 returns the one-character content a - Python slicing with a
negative bound drops characters from the end - together with
truncated = true; the returned content is not a prefix of length maxChars
(no string has a negative length), so the claim fails for negative
maxChars. -/
theorem read_file_negative_maxChars_cex :
    (read_file wfs wbase "a.txt" (-1)).content = some "a" ∧
    (read_file wfs wbase "a.txt" (-1)).truncated = some true ∧
    ((("a" : String).toList.length : Int) ≠ (-1 : Int)) := by
  refine ⟨by decide, by decide, by decide⟩

/-- Claim C5 (amended): for maxChars at least zero, reading an existing
regular file whose decoded text is given returns as content exactly the
first maxChars characters of the text and the flag
truncated = (length > maxChars); when the text is no longer than maxChars
that content is the whole text (and the flag is then false by the second
conjunct). -/
theorem read_file_slice_spec (fs : Fs) (base : List String) (path : String)
    (m : Int) (text : String)
    (hm : 0 ≤ m)
    (h1 : pyStartsWith path "~" = false) (h2 : pyStartsWith path "/" = false)
    (hin : sandboxed base (fs.resolveFn (pyJoin base path)) = true)
    (hf : fsIsFile fs (fs.resolveFn (pyJoin base path)) = true)
    (ht : fsText fs (fs.resolveFn (pyJoin base path)) = text) :
    (read_file fs base path m).content = some (String.mk (text.toList.take m.toNat)) ∧
    (read_file fs base path m).truncated =
      some (decide ((text.toList.length : Int) > m)) ∧
    ((text.toList.length : Int) ≤ m → String.mk (text.toList.take m.toNat) = text) := by
  have hps : pySlice text m = String.mk (text.toList.take m.toNat) := by
    unfold pySlice pySliceL
    rw [if_pos hm]
  refine ⟨?_, ?_, ?_⟩
  · simp [read_file, h1, h2, hin, pyExists, hf, ht, hps]
  · simp [read_file, h1, h2, hin, pyExists, hf, ht]
  · intro hle
    have hlen : text.toList.length ≤ m.toNat := by omega
    rw [List.take_of_length_le hlen, strMk_toList]

/-- Witness for the amended C5: reading the two-character file a.txt with a
cap of five returns the whole text untruncated. -/
theorem read_file_slice_spec_witness :
    ((read_file wfs wbase "a.txt" 5).content =
      some (String.mk (("ab" : String).toList.take (5 : Int).toNat)) ∧
    (read_file wfs wbase "a.txt" 5).truncated =
      some (decide ((("ab" : String).toList.length : Int) > 5)) ∧
    ((("ab" : String).toList.length : Int) ≤ 5 →
      String.mk (("ab" : String).toList.take (5 : Int).toNat) = "ab")) :=
  read_file_slice_spec wfs wbase "a.txt" 5 "ab" (by decide) (by decide) (by decide)
    (by decide) (by decide) (by decide)

/-- Claim C6, counterexample: on a filesystem holding one file named ~x,
list_files with maxResults = 0 returns one entry (the cap check runs after
the append, so a non-positive cap still lets an entry through), and that
returned entry fails re-resolution with the home-marker ValueError of the
sandbox resolver; both conjuncts of the claim fail at this input. -/
theorem list_files_cap_reresolve_cex :
    (list_files cexFs wbase "." 0).files = some ["~x"] ∧
    (list_files cexFs wbase "." 0).count = some 1 ∧
    ¬((1 : Int) ≤ 0) ∧
    safe_resolve cexFs wbase "~x" =
      Except.error (.valueError "InvalidPath: use a relative path.") := by
  refine ⟨by decide, by decide, by decide, rfl⟩

/-- Claim C6 (amended): over a well-formed filesystem and for a positive
maxResults, list_files returns at most maxResults entries, and every
returned entry that does not begin with the home marker re-resolves
successfully through the sandbox resolver. -/
theorem list_files_cap_and_reresolve (fs : Fs) (base : List String)
    (root : String) (m : Int) (hm : 1 ≤ m) (hwf : FsWF fs) :
    ((((list_files fs base root m).files.getD []).length : Int) ≤ m) ∧
    (∀ e ∈ (list_files fs base root m).files.getD [],
      pyStartsWith e "~" = false → ∃ p, safe_resolve fs base e = Except.ok p) := by
  simp only [list_files]
  split
  · exact ⟨by simp; omega, fun e he => by simp at he⟩
  · split
    · exact ⟨by simp; omega, fun e he => by simp at he⟩
    · split
      · exact ⟨by simp; omega, fun e he => by simp at he⟩
      · next hsb _ =>
        have hsb' : sandboxed base (fs.resolveFn (pyJoin base root)) = true := by
          simpa using hsb
        have hpre1 : base <+: fs.resolveFn (pyJoin base root) :=
          (sandboxed_iff _ _).mp hsb'
        constructor
        · simp only [Option.getD_some]
          exact collectCapped_length m _ [] (by simp; omega)
        · intro e he hnt
          simp only [Option.getD_some] at he
          rcases collectCapped_mem m _ [] e he with h' | h'
          · simp at h'
          · obtain ⟨f, hfmem, rfl⟩ := List.mem_map.mp h'
            have hf2 := List.mem_filter.mp hfmem
            have hunder := hf2.2
            unfold isUnderStrict at hunder
            simp only [Bool.and_eq_true, decide_eq_true_eq] at hunder
            have hpre2 : fs.resolveFn (pyJoin base root) <+: f.path :=
              List.isPrefixOf_iff_prefix.mp hunder.1
            have hprefix : base <+: f.path := hpre1.trans hpre2
            have hlt : base.length < f.path.length := by
              have hle1 := hpre1.length_le
              have hlt2 : (fs.resolveFn (pyJoin base root)).length < f.path.length := by
                rcases Nat.lt_or_ge (fs.resolveFn (pyJoin base root)).length f.path.length
                  with hl | hg
                · exact hl
                · exact absurd
                    (List.IsPrefix.eq_of_length hpre2
                      (Nat.le_antisymm hpre2.length_le hg))
                    hunder.2
              omega
            exact ⟨f.path,
              reresolve_ok fs base f.path (hwf.1 f hf2.1) (hwf.2 f hf2.1)
                hprefix hlt hnt⟩

/-- Witness for the amended C6 on the concrete repository. -/
theorem list_files_cap_and_reresolve_witness :
    (((((list_files wfs wbase "." 200).files.getD []).length : Int) ≤ 200) ∧
    (∀ e ∈ (list_files wfs wbase "." 200).files.getD [],
      pyStartsWith e "~" = false → ∃ p, safe_resolve wfs wbase e = Except.ok p)) :=
  list_files_cap_and_reresolve wfs wbase "." 200 (by decide) (by decide)

/-- Claim C10: a successful explain_repository response carries exactly the
first ten entry-point candidates collected in sorted-path scan order - the
final slice of ten silently discards the rest - so the list never exceeds
ten entries, and reaches exactly ten whenever more than ten scanned files
match the entry-point conventions. -/
theorem explain_entry_candidates_capped (parse : PyParse) (fs : Fs)
    (base : List String) (root : String) (mf mcpf : Int)
    (hok : (explain_repository parse fs base root mf mcpf).ok = true) :
    ((explain_repository parse fs base root mf mcpf).entry_point_candidates.getD []) =
      (entryCandidatesAll base
        (pyFilesScanned fs (fs.resolveFn (pyJoin base root)) mf)).take 10 ∧
    ((explain_repository parse fs base root mf mcpf).entry_point_candidates.getD []).length
      ≤ 10 ∧
    (10 < (entryCandidatesAll base
        (pyFilesScanned fs (fs.resolveFn (pyJoin base root)) mf)).length →
      ((explain_repository parse fs base root mf mcpf).entry_point_candidates.getD []).length
        = 10) := by
  by_cases h1 : (pyStartsWith root "~" || pyStartsWith root "/") = true
  · simp [explain_repository, h1] at hok
  · by_cases h2 : (!sandboxed base (fs.resolveFn (pyJoin base root))) = true
    · simp [explain_repository, h1, h2] at hok
    · by_cases h3 : (!pyExists fs (fs.resolveFn (pyJoin base root)) ||
        !fsIsDir fs (fs.resolveFn (pyJoin base root))) = true
      · simp [explain_repository, h1, h2, h3] at hok
      · have hslice : pySliceL 10 (entryCandidatesAll base
            (pyFilesScanned fs (fs.resolveFn (pyJoin base root)) mf)) =
            (entryCandidatesAll base
              (pyFilesScanned fs (fs.resolveFn (pyJoin base root)) mf)).take 10 := by
          unfold pySliceL
          rw [if_pos (by omega)]
          rfl
        refine ⟨?_, ?_, ?_⟩
        · simp [explain_repository, h1, h2, h3, hslice]
        · simp only [explain_repository, h1, h2, h3]
          simp [hslice, List.length_take]
        · intro hmore
          simp only [explain_repository, h1, h2, h3]
          simp [hslice, List.length_take]
          omega

/-- Witness for C10: the concrete repository holds eleven Python files whose
names match the entry-point conventions, and the successful response carries
exactly the first ten. -/
theorem explain_entry_candidates_capped_witness :
    ((explain_repository parseFail wfs wbase "." 60 12000).entry_point_candidates.getD []) =
      (entryCandidatesAll wbase
        (pyFilesScanned wfs (wfs.resolveFn (pyJoin wbase ".")) 60)).take 10 ∧
    ((explain_repository parseFail wfs wbase "." 60 12000).entry_point_candidates.getD []).length
      ≤ 10 ∧
    (10 < (entryCandidatesAll wbase
        (pyFilesScanned wfs (wfs.resolveFn (pyJoin wbase ".")) 60)).length →
      ((explain_repository parseFail wfs wbase "." 60 12000).entry_point_candidates.getD []).length
        = 10) :=
  explain_entry_candidates_capped parseFail wfs wbase "." 60 12000 (by decide)

/-- Claim C3: on a repository whose file t.md holds two lines matching the
query hit, smart_search with maxHits = 1 does not return a capped hit list
with truncated = true: it returns the catch-all NameError failure, because
line 232 of server.py evaluates shutil.which while shutil is never
imported.  The second and third conjuncts evaluate the fallback scanner of
lines 277-326 - the code the claim describes, unreachable as shipped - at
the same input: it would return exactly one hit and truncated = true. -/
theorem smart_search_cap_nameError_bug :
    smart_search wfs wbase "hit" "." false false 1 512 =
      { ok := false, error := some "NameError",
        message := some "name \x27shutil\x27 is not defined" } ∧
    (smart_search_fallback (fun _ _ _ => false) wfs wbase "hit" "." false false 1 512).hits =
      some [{ path := "t.md", line := 1, text := "x hit" }] ∧
    (smart_search_fallback (fun _ _ _ => false) wfs wbase "hit" "." false false 1 512).truncated =
      some true := by
  refine ⟨by decide, by decide, by decide⟩

/-- Claim C7: searching for TODO in a repository whose file notes.md holds
the line with the lowercased todo marker does not yield the claimed single
hit: the shipped smart_search returns the catch-all NameError failure (the
module never imports shutil, subprocess or re).  The remaining conjuncts
evaluate the fallback scanner the claim describes at the same input: it
would yield exactly the one case-insensitive literal hit, with the 1-based
line number and the trimmed line text. -/
theorem smart_search_todo_nameError_bug :
    smart_search wfs wbase "TODO" "." false false 50 512 =
      { ok := false, error := some "NameError",
        message := some "name \x27shutil\x27 is not defined" } ∧
    (smart_search_fallback (fun _ _ _ => false) wfs wbase "TODO" "." false false 50 512).hits =
      some [{ path := "notes.md", line := 1, text := "// todo: fix" }] ∧
    (smart_search_fallback (fun _ _ _ => false) wfs wbase "TODO" "." false false 50 512).truncated =
      some false := by
  refine ⟨by decide, by decide, by decide⟩

/-! ### Supporting facts about smart_search -/

/-- The shipped smart_search never succeeds on any input and over any
filesystem state: every call either fails its sandbox or directory checks
or reaches the undefined shutil name, so no response ever carries a hit
list or a truncated flag. -/
theorem smart_search_never_succeeds (fs : Fs) (base : List String)
    (query root : String) (ur cs : Bool) (mh kb : Int) :
    (smart_search fs base query root ur cs mh kb).ok = false ∧
    (smart_search fs base query root ur cs mh kb).hits = none ∧
    (smart_search fs base query root ur cs mh kb).truncated = none := by
  simp only [smart_search]
  split
  · exact ⟨rfl, rfl, rfl⟩
  · exact ⟨rfl, rfl, rfl⟩
  · split
    · exact ⟨rfl, rfl, rfl⟩
    · exact ⟨rfl, rfl, rfl⟩

/-- The inner line loop of the fallback scanner keeps the hit count at the
cap or below, and reports the cap not reached only while strictly below it,
provided it starts strictly below the cap. -/
theorem scanLines_bound (pat : String → Bool) (rel : String) (m : Int) :
    ∀ (ls : List String) (acc : List SearchHit) (i : Nat),
      ((acc.length : Int) < m) →
      (((scanLines pat rel m acc i ls).1.length : Int) ≤ m ∧
        ((scanLines pat rel m acc i ls).2 = false →
          ((scanLines pat rel m acc i ls).1.length : Int) < m)) := by
  intro ls
  induction ls with
  | nil => intro acc i h; exact ⟨by simpa [scanLines] using le_of_lt h, fun _ => by simpa [scanLines] using h⟩
  | cons l ls' ih =>
    intro acc i h
    simp only [scanLines]
    split
    · have hlen : ((acc ++ [{ path := rel, line := i, text := pyStrip l : SearchHit }]).length : Int) =
          (acc.length : Int) + 1 := by simp
      split
      · exact ⟨by simp; omega, fun hfalse => by simp at hfalse⟩
      · next hge => exact ih _ (i + 1) (by omega)
    · exact ih acc (i + 1) h

/-- The file loop of the fallback scanner keeps the hit count at the cap or
below whenever it starts strictly below the cap. -/
theorem scanFiles_bound (pat : String → Bool) (base : List String) (m kb : Int) :
    ∀ (files : List FileRec) (acc : List SearchHit),
      ((acc.length : Int) < m) →
      (((scanFiles pat base m kb acc files).1.length : Int) ≤ m) := by
  intro files
  induction files with
  | nil => intro acc h; simpa [scanFiles] using le_of_lt h
  | cons f rest ih =>
    intro acc h
    simp only [scanFiles]
    split
    · exact ih acc h
    · split
      · exact ih acc h
      · have hb := scanLines_bound pat (relStr base f.path) m (pyFileLines f.text) acc 1 h
        split
        · next heq =>
          have := hb.1
          rw [heq] at this
          exact this
        · next heq =>
          have h2 := hb.2 (by rw [heq])
          rw [heq] at h2
          exact ih _ h2

/-- The fallback scanner the spec describes respects the hit cap: for a
positive maxHits, the hit list of a fallback response never holds more than
maxHits hits. -/
theorem smart_search_fallback_cap (regexSearch : Bool → String → String → Bool)
    (fs : Fs) (base : List String) (query root : String) (ur cs : Bool)
    (mh kb : Int) (hm : 1 ≤ mh) :
    ((((smart_search_fallback regexSearch fs base query root ur cs mh kb).hits.getD
      []).length : Int) ≤ mh) := by
  simp only [smart_search_fallback]
  split
  · simp; omega
  · simp; omega
  · split
    · simp; omega
    · rename_i root_path hsafe hnf
      have hb := scanFiles_bound (compiledSearch regexSearch query ur cs) base mh kb
        (rglobRecs fs root_path) [] (by simp; omega)
      split
      · next l heq2 =>
        rw [heq2] at hb
        simpa using hb
      · next l heq2 =>
        rw [heq2] at hb
        simpa using hb
